import Mathlib

/-!
Shallow embedding of the confluence-sync-system core (diff engine, state
store, retry client, change-event coalescer) together with theorems about
the behaviour its specification claims.

Maps that the Python source keeps as `dict[str, ...]` are embedded as
association lists `List (String × α)`; Python dict keys are unique, which
appears as `Nodup` hypotheses where a proof needs it.
-/

namespace ConfluenceSync

/-- One entry of the persisted remote-asset map
(`state_manager.py`: `{ filename: { id, hash } }`). -/
structure RemoteEntry where
  id : String
  hash : String
deriving DecidableEq, Repr

/-- One entry of the local scan result
(`sync_engine.py` `_scan_local_files`: `{ path, hash, width, height, size }`). -/
structure LocalEntry where
  path : String
  hash : String
  width : Nat
  height : Nat
  size : String
deriving DecidableEq, Repr

/-- Keys of an association list, in insertion order (Python `dict` iteration). -/
def keys (m : List (String × α)) : List String := m.map Prod.fst

/-- Python `name in m` membership test on a dict. -/
def hasKey (m : List (String × α)) (name : String) : Bool := (keys m).contains name

/-- `SyncDiff` from `sync_engine.py`. -/
structure SyncDiff where
  to_add : List String
  to_update : List String
  to_delete : List String
deriving DecidableEq, Repr

/-- `SyncDiff.has_changes`: `bool(self.to_add or self.to_update or self.to_delete)`. -/
def SyncDiff.has_changes (d : SyncDiff) : Bool :=
  !d.to_add.isEmpty || !d.to_update.isEmpty || !d.to_delete.isEmpty

/-- Hash stored for `name` in a local map (Python `local_state[name]['hash']`). -/
def localHash (m : List (String × LocalEntry)) (name : String) : Option String :=
  (m.lookup name).map LocalEntry.hash

/-- Hash stored for `name` in a remote map (Python `remote_state[name]['hash']`). -/
def remoteHash (m : List (String × RemoteEntry)) (name : String) : Option String :=
  (m.lookup name).map RemoteEntry.hash

/-- `BaseSyncEngine._calculate_diff` from `sync_engine.py`:
`to_add` = local names absent from remote, `to_delete` = remote names absent
from local, `to_update` = names in both whose `'hash'` fields differ
(plain `!=` string comparison). -/
def calculate_diff (local_state : List (String × LocalEntry))
    (remote_state : List (String × RemoteEntry)) : SyncDiff :=
  { to_add := (keys local_state).filter (fun name => !hasKey remote_state name)
    to_update := (keys local_state).filter (fun name =>
      hasKey remote_state name && (localHash local_state name != remoteHash remote_state name))
    to_delete := (keys remote_state).filter (fun name => !hasKey local_state name) }

/-- `HashCalculator.compare` from `hash_calculator.py`:
`hash1.lower() == hash2.lower()` (ASCII case-insensitive for hex digests). -/
def lowerStr (s : String) : String := String.mk (s.data.map Char.toLower)

namespace HashCalculator

/-- `HashCalculator.compare(hash1, hash2)`. -/
def compare (hash1 hash2 : String) : Bool := lowerStr hash1 == lowerStr hash2

end HashCalculator

theorem mem_keys_iff_hasKey (m : List (String × α)) (name : String) :
    hasKey m name = true ↔ name ∈ keys m := by
  simp [hasKey, List.contains_iff_exists_mem_beq]

theorem hasKey_eq_false_iff (m : List (String × α)) (name : String) :
    hasKey m name = false ↔ name ∉ keys m := by
  rw [← mem_keys_iff_hasKey]
  cases h : hasKey m name <;> simp [h]

/-- C1: the diff engine returns `to_add` = local keys absent from remote,
`to_delete` = remote keys absent from local, `to_update` = keys present in
both whose stored hash values differ; and `has_changes` is `false` iff all
three lists are empty. -/
theorem diff_engine_correct (L : List (String × LocalEntry))
    (R : List (String × RemoteEntry)) (name : String) :
    (name ∈ (calculate_diff L R).to_add ↔ name ∈ keys L ∧ name ∉ keys R) ∧
    (name ∈ (calculate_diff L R).to_delete ↔ name ∈ keys R ∧ name ∉ keys L) ∧
    (name ∈ (calculate_diff L R).to_update ↔
      name ∈ keys L ∧ name ∈ keys R ∧ localHash L name ≠ remoteHash R name) ∧
    ((calculate_diff L R).has_changes = false ↔
      (calculate_diff L R).to_add = [] ∧ (calculate_diff L R).to_update = [] ∧
        (calculate_diff L R).to_delete = []) := by
  refine ⟨?_, ?_, ?_, ?_⟩
  · simp [calculate_diff, List.mem_filter, hasKey_eq_false_iff]
  · simp [calculate_diff, List.mem_filter, hasKey_eq_false_iff]
  · simp [calculate_diff, List.mem_filter, mem_keys_iff_hasKey, and_assoc]
  · simp [SyncDiff.has_changes, List.isEmpty_iff, and_assoc]

/-- C6 counterexample: the hashes `"ABC123"` and `"abc123"` are equal up to
ASCII case (`HashCalculator.compare` accepts them), yet `_calculate_diff`
places the filename in `to_update`: the diff's hash comparison is NOT
case-normalized. -/
theorem diff_hash_case_counterexample :
    HashCalculator.compare "ABC123" "abc123" = true ∧
    "a.png" ∈ (calculate_diff [("a.png", ⟨"p", "ABC123", 1, 1, "1x1"⟩)]
        [("a.png", ⟨"7", "abc123"⟩)]).to_update := by
  decide

/-- C6 (amended): membership in `to_update` is decided by exact (case-sensitive)
string comparison of the stored hashes — `_calculate_diff` uses `!=` directly
and never calls the case-normalizing `HashCalculator.compare`.  A filename
present in both maps is excluded from `to_update` iff its two hashes are equal
as exact strings. -/
theorem diff_hash_exact_comparison (L : List (String × LocalEntry))
    (R : List (String × RemoteEntry)) (name : String)
    (hL : name ∈ keys L) (hR : name ∈ keys R) :
    (localHash L name = remoteHash R name →
      name ∉ (calculate_diff L R).to_update) ∧
    (localHash L name ≠ remoteHash R name →
      name ∈ (calculate_diff L R).to_update) := by
  constructor
  · intro h hmem
    simp [calculate_diff, List.mem_filter, mem_keys_iff_hasKey, h] at hmem
  · intro h
    simp [calculate_diff, List.mem_filter, mem_keys_iff_hasKey, hL, hR, h]

/-- Witness for `diff_hash_exact_comparison` at a concrete input. -/
theorem diff_hash_exact_comparison_witness :
    "a.png" ∈ (calculate_diff [("a.png", ⟨"p", "ABC123", 1, 1, "1x1"⟩)]
        [("a.png", ⟨"7", "abc123"⟩)]).to_update :=
  (diff_hash_exact_comparison _ _ _ (by decide) (by decide)).2 (by decide)

/-- One history entry as stored by `state_manager.py`
(`{ date, log, user_id }`, newest first). -/
structure HistoryEntry where
  date : String
  log : String
  user_id : String
deriving DecidableEq, Repr

namespace StateManager

/-- `StateManager.add_history_entry` from `state_manager.py`:
`self._history.insert(0, entry)` followed by
`if keep and keep > 0: self._history = self._history[:keep]`.
For the non-negative `keep` the claims range over, Python's
`keep and keep > 0` is equivalent to `0 < keep`; `keep = 0` is falsy,
so no truncation happens then. -/
def add_history_entry (entry : HistoryEntry) (keep : Nat)
    (history : List HistoryEntry) : List HistoryEntry :=
  let h := entry :: history
  if 0 < keep then h.take keep else h

/-- `N` successive `add_history_entry` calls starting from an empty history;
call `i` (0-based) inserts `entries i`, so the newest entry is `entries (N-1)`. -/
def add_history_n (entries : Nat → HistoryEntry) (keep : Nat) : Nat → List HistoryEntry
  | 0 => []
  | n + 1 => add_history_entry (entries n) keep (add_history_n entries keep n)

end StateManager

/-- C5 counterexample: with `keep = 0` the truncation branch is skipped
(`keep` is falsy in Python), so one `add_history_entry` call leaves 1 entry,
not `min 1 0 = 0` as the claim states. -/
theorem history_cap_counterexample :
    ¬ ((StateManager.add_history_n
        (fun _ => ⟨"2026-01-01", "Sync (+1 ~0 -0)", "user"⟩) 0 1).length = min 1 0) := by
  decide

/-- C5 (amended): for every `N ≥ 0` and every `K ≥ 1`, after `N` calls to
`add_history_entry` with `keep = K` starting from an empty history, the stored
history is the newest-first list of inserted entries truncated to its first
`K` elements — hence exactly `min N K` entries with the tail beyond `K`
discarded.  (For `K = 0` the truncation is skipped entirely; see the
counterexample.) -/
theorem history_cap (entries : Nat → HistoryEntry) (K N : Nat) (hK : 1 ≤ K) :
    StateManager.add_history_n entries K N
        = (((List.range N).reverse).map entries).take K ∧
    (StateManager.add_history_n entries K N).length = min N K := by
  obtain ⟨k, rfl⟩ : ∃ k, K = k + 1 := ⟨K - 1, (Nat.succ_pred_eq_of_pos hK).symm⟩
  have main : StateManager.add_history_n entries (k + 1) N
      = (((List.range N).reverse).map entries).take (k + 1) := by
    induction N with
    | zero => simp [StateManager.add_history_n]
    | succ n ih =>
        rw [StateManager.add_history_n, ih, StateManager.add_history_entry]
        simp only [Nat.zero_lt_succ, if_pos, List.range_succ, List.reverse_append,
          List.reverse_singleton, List.map_cons, List.singleton_append]
        rw [List.take_succ_cons, List.take_succ_cons, List.take_take,
          Nat.min_eq_left (Nat.le_succ k)]
  refine ⟨main, ?_⟩
  rw [main, List.length_take, List.length_map, List.length_reverse,
    List.length_range, Nat.min_comm]

/-- Witness for `history_cap` at `N = 3`, `K = 2`. -/
theorem history_cap_witness :
    StateManager.add_history_n (fun i => ⟨"2026-01-01", toString i, "u"⟩) 2 3
        = (((List.range 3).reverse).map (fun i => ⟨"2026-01-01", toString i, "u"⟩)).take 2 ∧
    (StateManager.add_history_n (fun i => ⟨"2026-01-01", toString i, "u"⟩) 2 3).length
        = min 3 2 :=
  history_cap (fun i => ⟨"2026-01-01", toString i, "u"⟩) 2 3 (by decide)

/-- JSON document trees, as produced by `json.dump` and consumed by
`json.load` in `state_manager.py`.  Only the constructors the two persisted
documents use are needed: strings, arrays and string-keyed objects.
Modelling the documents at the parse-tree level reflects that
`json.load(json.dump(x))` returns a value equal to `x` for the str-keyed
structures the store persists; the temp-file/rename mechanics of the atomic
write are I/O and outside the embedding. -/
inductive Json where
  | str (s : String)
  | arr (elems : List Json)
  | obj (fields : List (String × Json))

/-- Encoding of one remote-asset entry: `{"id": ..., "hash": ...}`. -/
def encodeRemoteEntry (e : RemoteEntry) : Json :=
  .obj [("id", .str e.id), ("hash", .str e.hash)]

/-- Encoding of the remote-asset map document (`cache_file`). -/
def encodeRemoteState (m : List (String × RemoteEntry)) : Json :=
  .obj (m.map fun p => (p.1, encodeRemoteEntry p.2))

/-- Encoding of one history entry: `{"date": ..., "log": ..., "user_id": ...}`. -/
def encodeHistoryEntry (e : HistoryEntry) : Json :=
  .obj [("date", .str e.date), ("log", .str e.log), ("user_id", .str e.user_id)]

/-- Encoding of the history document (`history_file`). -/
def encodeHistory (h : List HistoryEntry) : Json :=
  .arr (h.map encodeHistoryEntry)

/-- Reading one remote-asset entry back from its document form. -/
def decodeRemoteEntry : Json → Option RemoteEntry
  | .obj [("id", .str i), ("hash", .str h)] => some ⟨i, h⟩
  | _ => none

/-- Reading the remote-asset map document back, as `StateManager._load` does
for `cache_file`. -/
def decodeRemoteState : Json → Option (List (String × RemoteEntry))
  | .obj fields =>
      fields.mapM (fun p => (decodeRemoteEntry p.2).map (fun e => (p.1, e)))
  | _ => none

/-- Reading one history entry back from its document form. -/
def decodeHistoryEntry : Json → Option HistoryEntry
  | .obj [("date", .str d), ("log", .str l), ("user_id", .str u)] => some ⟨d, l, u⟩
  | _ => none

/-- Reading the history document back, as `StateManager._load` does for
`history_file`. -/
def decodeHistory : Json → Option (List HistoryEntry)
  | .arr elems => elems.mapM decodeHistoryEntry
  | _ => none

/-- The in-memory state of a `StateManager`: `_remote_state` and `_history`. -/
structure StateManagerState where
  remote_state : List (String × RemoteEntry)
  history : List HistoryEntry
deriving DecidableEq

namespace StateManager

/-- `StateManager.save`: both documents are rewritten wholesale on every call
(each via atomic temp-file-then-rename; the pair models the two files). -/
def save (st : StateManagerState) : Json × Json :=
  (encodeRemoteState st.remote_state, encodeHistory st.history)

/-- Constructing a fresh `StateManager` over the same two files:
`_load` parses each document and assigns the results to
`_remote_state` / `_history`. -/
def reload (docs : Json × Json) : Option StateManagerState := do
  let m ← decodeRemoteState docs.1
  let h ← decodeHistory docs.2
  pure ⟨m, h⟩

end StateManager

theorem mapM_map_round_trip {α β : Type} (f : α → Option β) (g : β → α)
    (h : ∀ b, f (g b) = some b) (l : List β) : (l.map g).mapM f = some l := by
  induction l with
  | nil => rfl
  | cons x xs ih => rw [List.map_cons, List.mapM_cons, h, ih]; rfl

/-- C4: for every in-memory state of the state store, `save()` followed by a
fresh `StateManager` construction over the same two files reconstructs exactly
the saved remote-asset map and history list (round trip is the identity; the
filenames and field values range over arbitrary strings, unicode included). -/
theorem state_round_trip (st : StateManagerState) :
    StateManager.reload (StateManager.save st) = some st := by
  have h₁ : decodeRemoteState (encodeRemoteState st.remote_state)
      = some st.remote_state := by
    rw [encodeRemoteState, decodeRemoteState]
    exact mapM_map_round_trip _ _
      (fun b => by obtain ⟨k, e⟩ := b; cases e; rfl) st.remote_state
  have h₂ : decodeHistory (encodeHistory st.history) = some st.history := by
    rw [encodeHistory, decodeHistory]
    exact mapM_map_round_trip _ _ (fun b => by cases b; rfl) st.history
  simp [StateManager.save, StateManager.reload, h₁, h₂]

namespace ConfluenceClient

/-- One attempt's outcome as seen by `ConfluenceClient._request`:
either `session.request` returns a response with a status code, or it raises a
`requests.RequestException`; `transportErr (some c)` is an `HTTPError` carrying
a response with status `c` wrapped inside the transport exception,
`transportErr none` a plain network-level error without a response. -/
inductive Outcome where
  | resp (code : Nat)
  | transportErr (wrapped : Option Nat)
deriving DecidableEq

/-- What `_request` can raise. `unknownFailure` is the terminal
`raise last_exc or RuntimeError("Unknown request failure")` when the loop
ends with no recorded exception. -/
inductive ReqError where
  | httpError (code : Nat)
  | transportError (wrapped : Option Nat)
  | unknownFailure
deriving DecidableEq

/-- `400 <= code <= 499 and code not in (409, 429)`: a non-retryable 4xx. -/
def nonRetryable4xx (c : Nat) : Bool :=
  decide (400 ≤ c) && decide (c ≤ 499) && (c != 409) && (c != 429)

/-- `code in (429, 409) or (500 <= code <= 599)`: retried with backoff. -/
def retryableCode (c : Nat) : Bool :=
  (c == 409) || (c == 429) || (decide (500 ≤ c) && decide (c ≤ 599))

/-- The retry loop of `ConfluenceClient._request`, one step per
`for attempt in range(1, max_attempts + 1)` iteration.  `att` is the oracle
giving attempt `i`'s outcome (1-indexed), the second `Nat` is the remaining
attempts, and the `Option ReqError` is Python's `last_exc`.  The result pairs
what the call returns or raises with the number of HTTP requests issued.
The in-`try` `raise HTTPError` for a non-ok status is caught by the function's
own `except requests.RequestException` clause (HTTPError is a subclass), which
re-raises immediately for a non-retryable 4xx, re-raises on the last attempt,
and otherwise records the exception and retries after a backoff sleep. -/
def requestLoop (okStatus : List Nat) (att : Nat → Outcome) :
    Nat → Nat → Option ReqError → Except ReqError Nat × Nat
  | _, 0, lastExc => (Except.error (lastExc.getD ReqError.unknownFailure), 0)
  | attempt, r + 1, lastExc =>
    let isLast := r == 0
    match att attempt with
    | .resp code =>
      if nonRetryable4xx code then (Except.error (.httpError code), 1)
      else if retryableCode code then
        let next := requestLoop okStatus att (attempt + 1) r lastExc
        (next.1, next.2 + 1)
      else if !(okStatus.contains code) then
        if isLast then (Except.error (.httpError code), 1)
        else
          let next := requestLoop okStatus att (attempt + 1) r (some (.httpError code))
          (next.1, next.2 + 1)
      else (Except.ok code, 1)
    | .transportErr wrapped =>
      match wrapped with
      | some c =>
        if nonRetryable4xx c then (Except.error (.httpError c), 1)
        else if isLast then (Except.error (.httpError c), 1)
        else
          let next := requestLoop okStatus att (attempt + 1) r (some (.httpError c))
          (next.1, next.2 + 1)
      | none =>
        if isLast then (Except.error (.transportError none), 1)
        else
          let next := requestLoop okStatus att (attempt + 1) r (some (.transportError none))
          (next.1, next.2 + 1)

/-- `ConfluenceClient._request` with outcome oracle `att`:
run up to `maxAttempts` attempts starting at attempt 1 with `last_exc = None`.
In the source `max_attempts` defaults to 5 and `ok_status` to
`(200, 201, 204)`. -/
def request (okStatus : List Nat) (att : Nat → Outcome) (maxAttempts : Nat) :
    Except ReqError Nat × Nat :=
  requestLoop okStatus att 1 maxAttempts none

theorem requestLoop_all_500 (okStatus : List Nat) (att : Nat → Outcome)
    (h : ∀ i, att i = Outcome.resp 500) :
    ∀ (r a : Nat) (lastExc : Option ReqError),
      requestLoop okStatus att a r lastExc
        = (Except.error (lastExc.getD ReqError.unknownFailure), r) := by
  intro r
  induction r with
  | zero => intro a lastExc; rfl
  | succ n ih =>
      intro a lastExc
      rw [requestLoop, h a]
      simp only [nonRetryable4xx, retryableCode]
      norm_num
      rw [ih (a + 1) lastExc]
      exact ⟨rfl, rfl⟩

end ConfluenceClient

/-- C3: when every attempt yields HTTP 500, `_request` issues the HTTP request
exactly `maxAttempts` times and then propagates a failure (the terminal
`raise last_exc or RuntimeError`); when the first attempt yields a 4xx other
than 409/429 — directly, or wrapped inside a transport exception — the request
is issued exactly once and the error propagates immediately with no retry. -/
theorem retry_ceiling_and_no_retry (okStatus : List Nat)
    (att : Nat → ConfluenceClient.Outcome) (m c : Nat) :
    ((∀ i, att i = ConfluenceClient.Outcome.resp 500) →
      ConfluenceClient.request okStatus att m
        = (Except.error ConfluenceClient.ReqError.unknownFailure, m)) ∧
    (ConfluenceClient.nonRetryable4xx c = true → 1 ≤ m →
      att 1 = ConfluenceClient.Outcome.resp c →
      ConfluenceClient.request okStatus att m
        = (Except.error (ConfluenceClient.ReqError.httpError c), 1)) ∧
    (ConfluenceClient.nonRetryable4xx c = true → 1 ≤ m →
      att 1 = ConfluenceClient.Outcome.transportErr (some c) →
      ConfluenceClient.request okStatus att m
        = (Except.error (ConfluenceClient.ReqError.httpError c), 1)) := by
  refine ⟨?_, ?_, ?_⟩
  · intro h
    exact ConfluenceClient.requestLoop_all_500 okStatus att h m 1 none
  · intro hc hm h1
    obtain ⟨k, rfl⟩ : ∃ k, m = k + 1 := ⟨m - 1, (Nat.succ_pred_eq_of_pos hm).symm⟩
    rw [ConfluenceClient.request, ConfluenceClient.requestLoop, h1]
    simp [hc]
  · intro hc hm h1
    obtain ⟨k, rfl⟩ : ∃ k, m = k + 1 := ⟨m - 1, (Nat.succ_pred_eq_of_pos hm).symm⟩
    rw [ConfluenceClient.request, ConfluenceClient.requestLoop, h1]
    simp [hc]

/-- Witness for `retry_ceiling_and_no_retry`: an always-500 oracle with the
source defaults (`max_attempts = 5`, `ok_status = (200, 201, 204)`) is called
5 times then fails; a 404 oracle (direct or wrapped) is called once. -/
theorem retry_ceiling_and_no_retry_witness :
    ConfluenceClient.request [200, 201, 204] (fun _ => .resp 500) 5
        = (Except.error ConfluenceClient.ReqError.unknownFailure, 5) ∧
    ConfluenceClient.request [200, 201, 204] (fun _ => .resp 404) 5
        = (Except.error (ConfluenceClient.ReqError.httpError 404), 1) ∧
    ConfluenceClient.request [200, 201, 204] (fun _ => .transportErr (some 404)) 5
        = (Except.error (ConfluenceClient.ReqError.httpError 404), 1) :=
  ⟨(retry_ceiling_and_no_retry [200, 201, 204] (fun _ => .resp 500) 5 404).1
      (fun _ => rfl),
   (retry_ceiling_and_no_retry [200, 201, 204] (fun _ => .resp 404) 5 404).2.1
      (by decide) (by decide) rfl,
   (retry_ceiling_and_no_retry [200, 201, 204] (fun _ => .transportErr (some 404)) 5 404).2.2
      (by decide) (by decide) rfl⟩

namespace StateManager

/-- `StateManager.update_remote_file`: Python dict assignment
`self._remote_state[filename] = {"id": ..., "hash": ...}` keeps the position
of an existing key and appends a fresh key at the end. -/
def update_remote_file (m : List (String × RemoteEntry))
    (filename attachment_id file_hash : String) : List (String × RemoteEntry) :=
  if hasKey m filename then
    m.map (fun p => if p.1 == filename then (p.1, ⟨attachment_id, file_hash⟩) else p)
  else m ++ [(filename, ⟨attachment_id, file_hash⟩)]

/-- `StateManager.remove_remote_file`:
`if filename in self._remote_state: del self._remote_state[filename]`. -/
def remove_remote_file (m : List (String × RemoteEntry))
    (filename : String) : List (String × RemoteEntry) :=
  if hasKey m filename then m.eraseP (fun p => p.1 == filename) else m

end StateManager

/-- Python dict subscript `remote_state[name]` (total model; the diffs the
engine feeds to the apply phase only subscript present keys, so the default
is never reached there). -/
def dictGetRemote (m : List (String × RemoteEntry)) (name : String) : RemoteEntry :=
  (m.lookup name).getD ⟨"", ""⟩

/-- Python dict subscript `local_state[name]` (total model, as above). -/
def dictGetLocal (m : List (String × LocalEntry)) (name : String) : LocalEntry :=
  (m.lookup name).getD ⟨"", "", 0, 0, ""⟩

namespace SyncEngine

/-- `BaseSyncEngine._delete_file`: calls `client.delete_attachment` and
returns its boolean, catching any exception and returning `False` — an
individual delete failure never raises out of the apply phase.  The oracle
maps an attachment id to the client call's outcome (`Except` = raised). -/
def delete_file (delOracle : String → Except String Bool)
    (attachment_id : String) : Bool :=
  match delOracle attachment_id with
  | .ok b => b
  | .error _ => false

/-- `BaseSyncEngine._upload_file`: calls `client.upload_attachment(path,
filename)` (which returns an optional new id), catching any exception and
returning `None` — an individual upload failure never raises out of the
apply phase. -/
def upload_file (upOracle : String → String → Except String (Option String))
    (filename file_path : String) : Option String :=
  match upOracle file_path filename with
  | .ok v => v
  | .error _ => none

/-- Python truthiness of the `new_id` optional string in
`if new_id: self.state.update_remote_file(...)`:
`None` and the empty string are falsy. -/
def truthyId : Option String → Bool
  | none => false
  | some s => !(s == "")

/-- An operation issued to the remote client during the apply phase. -/
inductive OpEvent where
  | deleteCall (filename : String)
  | uploadCall (filename : String)
deriving DecidableEq, Repr

/-- Phase A of `_execute_operations`: the delete pool.  Each filename in
`to_delete` is submitted as `_delete_file(filename, remote_state[filename]
['id'])`; at the `as_completed` join the orchestrator thread removes the
entry from the store iff the future returned `True`.  Filenames are
processed in submission order; each appears at most once and operations on
distinct filenames commute on the map, so the sequential fold models the
pool's effect. -/
def deletePhase (delOracle : String → Except String Bool)
    (remote_state : List (String × RemoteEntry)) :
    List String → List (String × RemoteEntry) → List (String × RemoteEntry)
  | [], store => store
  | f :: fs, store =>
      let store' :=
        if delete_file delOracle (dictGetRemote remote_state f).id then
          StateManager.remove_remote_file store f
        else store
      deletePhase delOracle remote_state fs store'

/-- Phase B of `_execute_operations`: the upload pool over
`to_add + to_update`.  At the join, a truthy new id records
`update_remote_file(filename, new_id, local_state[filename]['hash'])`;
a falsy one records nothing. -/
def uploadPhase (upOracle : String → String → Except String (Option String))
    (local_state : List (String × LocalEntry)) :
    List String → List (String × RemoteEntry) → List (String × RemoteEntry)
  | [], store => store
  | f :: fs, store =>
      let newId := upload_file upOracle f (dictGetLocal local_state f).path
      let store' :=
        if truthyId newId then
          StateManager.update_remote_file store f (newId.getD "")
            (dictGetLocal local_state f).hash
        else store
      uploadPhase upOracle local_state fs store'

/-- `BaseSyncEngine._execute_operations`: the delete pool's `with` block joins
every delete future before the upload pool is created, so in the issued-
operation trace all `deleteCall`s precede all `uploadCall`s.  Returns the
final state-store map and that trace. -/
def execute_operations (diff : SyncDiff)
    (local_state : List (String × LocalEntry))
    (remote_state : List (String × RemoteEntry))
    (store : List (String × RemoteEntry))
    (delOracle : String → Except String Bool)
    (upOracle : String → String → Except String (Option String)) :
    List (String × RemoteEntry) × List OpEvent :=
  let store₁ := deletePhase delOracle remote_state diff.to_delete store
  let uploadTargets := diff.to_add ++ diff.to_update
  let store₂ := uploadPhase upOracle local_state uploadTargets store₁
  (store₂, diff.to_delete.map OpEvent.deleteCall ++ uploadTargets.map OpEvent.uploadCall)

end SyncEngine

/-- C7: in the apply phase's issued-operation trace, every delete call occurs
strictly before every upload call — the delete pool is joined before the
upload pool is created. -/
theorem deletes_issued_before_uploads (diff : SyncDiff)
    (local_state : List (String × LocalEntry))
    (remote_state store : List (String × RemoteEntry))
    (delOracle : String → Except String Bool)
    (upOracle : String → String → Except String (Option String))
    (i j : Nat) (f g : String)
    (hi : (SyncEngine.execute_operations diff local_state remote_state store
        delOracle upOracle).2[i]? = some (SyncEngine.OpEvent.deleteCall f))
    (hj : (SyncEngine.execute_operations diff local_state remote_state store
        delOracle upOracle).2[j]? = some (SyncEngine.OpEvent.uploadCall g)) :
    i < j := by
  rw [SyncEngine.execute_operations] at hi hj
  set A := diff.to_delete.map SyncEngine.OpEvent.deleteCall with hA
  set B := (diff.to_add ++ diff.to_update).map SyncEngine.OpEvent.uploadCall with hB
  have hiA : i < A.length := by
    by_contra hlt
    push_neg at hlt
    rw [List.getElem?_append_right hlt] at hi
    rw [hB, List.getElem?_map] at hi
    cases h : (diff.to_add ++ diff.to_update)[i - A.length]? <;> simp [h] at hi
  have hjB : A.length ≤ j := by
    by_contra hlt
    push_neg at hlt
    rw [List.getElem?_append_left hlt] at hj
    rw [hA, List.getElem?_map] at hj
    cases h : diff.to_delete[j]? <;> simp [h] at hj
  omega

/-- Witness for `deletes_issued_before_uploads` on a one-delete, one-upload
diff: the delete is at index 0, the upload at index 1. -/
theorem deletes_issued_before_uploads_witness :
    (SyncEngine.execute_operations ⟨["a.png"], [], ["d.png"]⟩
        [("a.png", ⟨"p", "h1", 1, 1, "1x1"⟩)] [("d.png", ⟨"9", "h9"⟩)]
        [("d.png", ⟨"9", "h9"⟩)] (fun _ => .ok true)
        (fun _ _ => .ok (some "1"))).2[0]?
      = some (SyncEngine.OpEvent.deleteCall "d.png") ∧
    (SyncEngine.execute_operations ⟨["a.png"], [], ["d.png"]⟩
        [("a.png", ⟨"p", "h1", 1, 1, "1x1"⟩)] [("d.png", ⟨"9", "h9"⟩)]
        [("d.png", ⟨"9", "h9"⟩)] (fun _ => .ok true)
        (fun _ _ => .ok (some "1"))).2[1]?
      = some (SyncEngine.OpEvent.uploadCall "a.png") ∧
    (0 : Nat) < 1 :=
  ⟨by decide, by decide,
   deletes_issued_before_uploads ⟨["a.png"], [], ["d.png"]⟩
     [("a.png", ⟨"p", "h1", 1, 1, "1x1"⟩)] [("d.png", ⟨"9", "h9"⟩)]
     [("d.png", ⟨"9", "h9"⟩)] (fun _ => .ok true) (fun _ _ => .ok (some "1"))
     0 1 "d.png" "a.png" (by decide) (by decide)⟩

section LookupPreservation

variable {α : Type}

theorem lookup_cons_unfold (k : String) (v : α) (rest : List (String × α))
    (f : String) :
    ((k, v) :: rest).lookup f = if f == k then some v else rest.lookup f := by
  cases hfk : f == k <;> simp [List.lookup, hfk]

theorem lookup_eraseP_ne (m : List (String × α)) (g f : String) (h : f ≠ g) :
    (m.eraseP (fun p => p.1 == g)).lookup f = m.lookup f := by
  induction m with
  | nil => rfl
  | cons p rest ih =>
      obtain ⟨k, v⟩ := p
      by_cases hk : k = g
      · subst hk
        have hb : (f == k) = false := beq_eq_false_iff_ne.mpr h
        have hself : ((k, v).1 == k) = true := by simp
        rw [List.eraseP_cons, hself, cond_true, lookup_cons_unfold, hb]
        simp
      · have hb : ((k, v).1 == g) = false := beq_eq_false_iff_ne.mpr hk
        rw [List.eraseP_cons, hb, cond_false, lookup_cons_unfold,
          lookup_cons_unfold, ih]

theorem lookup_map_replace_ne (m : List (String × α)) (g : String) (e : α)
    (f : String) (h : f ≠ g) :
    (m.map (fun p => if p.1 == g then (p.1, e) else p)).lookup f = m.lookup f := by
  induction m with
  | nil => rfl
  | cons p rest ih =>
      obtain ⟨k, v⟩ := p
      rw [List.map_cons]
      by_cases hk : k = g
      · subst hk
        have hb : (f == k) = false := beq_eq_false_iff_ne.mpr h
        have hhead : (if ((k, v).1 == k) = true then ((k, v).1, e) else (k, v))
            = (k, e) := by simp
        rw [hhead, lookup_cons_unfold, lookup_cons_unfold, ih, hb]
        simp
      · have hb : ((k, v).1 == g) = false := beq_eq_false_iff_ne.mpr hk
        have hhead : (if ((k, v).1 == g) = true then ((k, v).1, e) else (k, v))
            = (k, v) := by rw [hb]; simp
        rw [hhead, lookup_cons_unfold, lookup_cons_unfold, ih]

theorem lookup_append_single_ne (m : List (String × α)) (g : String) (e : α)
    (f : String) (h : f ≠ g) :
    (m ++ [(g, e)]).lookup f = m.lookup f := by
  induction m with
  | nil =>
      have hb : (f == g) = false := beq_eq_false_iff_ne.mpr h
      rw [List.nil_append, lookup_cons_unfold, hb]
      simp [List.lookup]
  | cons p rest ih =>
      obtain ⟨k, v⟩ := p
      rw [List.cons_append, lookup_cons_unfold, lookup_cons_unfold, ih]

end LookupPreservation

theorem lookup_remove_remote_file_ne (m : List (String × RemoteEntry))
    (g f : String) (h : f ≠ g) :
    (StateManager.remove_remote_file m g).lookup f = m.lookup f := by
  rw [StateManager.remove_remote_file]
  by_cases hk : hasKey m g
  · simp only [hk, if_pos]
    exact lookup_eraseP_ne m g f h
  · simp [hk]

theorem lookup_update_remote_file_ne (m : List (String × RemoteEntry))
    (g i hsh f : String) (h : f ≠ g) :
    (StateManager.update_remote_file m g i hsh).lookup f = m.lookup f := by
  rw [StateManager.update_remote_file]
  by_cases hk : hasKey m g
  · simp only [hk, if_pos]
    exact lookup_map_replace_ne m g _ f h
  · simp only [hk, Bool.false_eq_true, if_neg]
    exact lookup_append_single_ne m g _ f h

namespace SyncEngine

theorem deletePhase_lookup_not_mem (delOracle : String → Except String Bool)
    (remote_state : List (String × RemoteEntry)) (fs : List String)
    (store : List (String × RemoteEntry)) (f : String) (hf : f ∉ fs) :
    (deletePhase delOracle remote_state fs store).lookup f = store.lookup f := by
  induction fs generalizing store with
  | nil => rfl
  | cons g gs ih =>
      rw [deletePhase]
      have hfg : f ≠ g := fun heq => hf (heq ▸ List.mem_cons_self g gs)
      have hf' : f ∉ gs := fun hmem => hf (List.mem_cons_of_mem g hmem)
      rw [ih _ hf']
      by_cases hd : delete_file delOracle (dictGetRemote remote_state g).id
      · simp only [hd, if_pos]
        exact lookup_remove_remote_file_ne store g f hfg
      · simp [hd]

theorem deletePhase_lookup_failed (delOracle : String → Except String Bool)
    (remote_state : List (String × RemoteEntry)) (fs : List String)
    (store : List (String × RemoteEntry)) (f : String)
    (hnd : fs.Nodup) (hf : f ∈ fs)
    (hfail : delete_file delOracle (dictGetRemote remote_state f).id = false) :
    (deletePhase delOracle remote_state fs store).lookup f = store.lookup f := by
  induction fs generalizing store with
  | nil => cases hf
  | cons g gs ih =>
      obtain ⟨hg, hnd'⟩ := List.nodup_cons.mp hnd
      rw [deletePhase]
      rcases List.mem_cons.mp hf with heq | hmem
      · subst heq
        rw [hfail]
        simp only [Bool.false_eq_true, if_neg]
        exact deletePhase_lookup_not_mem delOracle remote_state gs store f hg
      · have hfg : f ≠ g := fun heq => hg (heq ▸ hmem)
        rw [ih _ hnd' hmem]
        by_cases hd : delete_file delOracle (dictGetRemote remote_state g).id
        · simp only [hd, if_pos]
          exact lookup_remove_remote_file_ne store g f hfg
        · simp [hd]

theorem uploadPhase_lookup_not_mem
    (upOracle : String → String → Except String (Option String))
    (local_state : List (String × LocalEntry)) (fs : List String)
    (store : List (String × RemoteEntry)) (f : String) (hf : f ∉ fs) :
    (uploadPhase upOracle local_state fs store).lookup f = store.lookup f := by
  induction fs generalizing store with
  | nil => rfl
  | cons g gs ih =>
      rw [uploadPhase]
      have hfg : f ≠ g := fun heq => hf (heq ▸ List.mem_cons_self g gs)
      have hf' : f ∉ gs := fun hmem => hf (List.mem_cons_of_mem g hmem)
      rw [ih _ hf']
      by_cases hu : truthyId (upload_file upOracle g (dictGetLocal local_state g).path)
      · simp only [hu, if_pos]
        exact lookup_update_remote_file_ne store g _ _ f hfg
      · simp [hu]

theorem uploadPhase_lookup_failed
    (upOracle : String → String → Except String (Option String))
    (local_state : List (String × LocalEntry)) (fs : List String)
    (store : List (String × RemoteEntry)) (f : String)
    (hnd : fs.Nodup) (hf : f ∈ fs)
    (hfail : truthyId (upload_file upOracle f (dictGetLocal local_state f).path) = false) :
    (uploadPhase upOracle local_state fs store).lookup f = store.lookup f := by
  induction fs generalizing store with
  | nil => cases hf
  | cons g gs ih =>
      obtain ⟨hg, hnd'⟩ := List.nodup_cons.mp hnd
      rw [uploadPhase]
      rcases List.mem_cons.mp hf with heq | hmem
      · subst heq
        rw [hfail]
        simp only [Bool.false_eq_true, if_neg]
        exact uploadPhase_lookup_not_mem upOracle local_state gs store f hg
      · have hfg : f ≠ g := fun heq => hg (heq ▸ hmem)
        rw [ih _ hnd' hmem]
        by_cases hu : truthyId (upload_file upOracle g (dictGetLocal local_state g).path)
        · simp only [hu, if_pos]
          exact lookup_update_remote_file_ne store g _ _ f hfg
        · simp [hu]

end SyncEngine

/-- C8: the apply phase tolerates partial failure.  Over arbitrary client
oracles — including ones that always raise — `execute_operations` returns
normally (`_delete_file` / `_upload_file` catch every exception), and for the
diff the engine computes in its incremental path (`remote_state` is the state
store's own map): a filename in `to_delete` whose delete fails keeps its
store entry unchanged, and a filename in `to_add`/`to_update` whose upload
fails has nothing recorded or updated for it. -/
theorem apply_phase_partial_failure
    (local_state : List (String × LocalEntry))
    (store : List (String × RemoteEntry))
    (delOracle : String → Except String Bool)
    (upOracle : String → String → Except String (Option String))
    (f : String)
    (hndS : (keys store).Nodup) (hndL : (keys local_state).Nodup) :
    (f ∈ (calculate_diff local_state store).to_delete →
      SyncEngine.delete_file delOracle (dictGetRemote store f).id = false →
      (SyncEngine.execute_operations (calculate_diff local_state store)
          local_state store store delOracle upOracle).1.lookup f
        = store.lookup f) ∧
    (f ∈ (calculate_diff local_state store).to_add
        ++ (calculate_diff local_state store).to_update →
      SyncEngine.truthyId (SyncEngine.upload_file upOracle f
          (dictGetLocal local_state f).path) = false →
      (SyncEngine.execute_operations (calculate_diff local_state store)
          local_state store store delOracle upOracle).1.lookup f
        = store.lookup f) := by
  have hmem_del : ∀ x, x ∈ (calculate_diff local_state store).to_delete →
      x ∈ keys store ∧ x ∉ keys local_state := by
    intro x hx
    rw [calculate_diff] at hx
    obtain ⟨hx₁, hx₂⟩ := List.mem_filter.mp hx
    exact ⟨hx₁, (hasKey_eq_false_iff local_state x).mp (by simpa using hx₂)⟩
  have hmem_add : ∀ x, x ∈ (calculate_diff local_state store).to_add →
      x ∈ keys local_state ∧ x ∉ keys store := by
    intro x hx
    rw [calculate_diff] at hx
    obtain ⟨hx₁, hx₂⟩ := List.mem_filter.mp hx
    exact ⟨hx₁, (hasKey_eq_false_iff store x).mp (by simpa using hx₂)⟩
  have hmem_upd : ∀ x, x ∈ (calculate_diff local_state store).to_update →
      x ∈ keys local_state ∧ x ∈ keys store := by
    intro x hx
    rw [calculate_diff] at hx
    obtain ⟨hx₁, hx₂⟩ := List.mem_filter.mp hx
    refine ⟨hx₁, (mem_keys_iff_hasKey store x).mp ?_⟩
    exact (Bool.and_eq_true _ _ |>.mp hx₂).1
  have hnd_del : (calculate_diff local_state store).to_delete.Nodup :=
    hndS.filter _
  have hnd_up : ((calculate_diff local_state store).to_add
      ++ (calculate_diff local_state store).to_update).Nodup := by
    refine List.Nodup.append (hndL.filter _) (hndL.filter _) ?_
    intro x hx₁ hx₂
    exact absurd (hmem_upd x hx₂).2 (hmem_add x hx₁).2
  constructor
  · intro hdel hfail
    obtain ⟨-, hnotL⟩ := hmem_del f hdel
    have hUp : f ∉ (calculate_diff local_state store).to_add
        ++ (calculate_diff local_state store).to_update := by
      intro hmem
      rcases List.mem_append.mp hmem with hx | hx
      · exact hnotL (hmem_add f hx).1
      · exact hnotL (hmem_upd f hx).1
    simp only [SyncEngine.execute_operations]
    rw [SyncEngine.uploadPhase_lookup_not_mem _ _ _ _ _ hUp]
    exact SyncEngine.deletePhase_lookup_failed _ _ _ _ _ hnd_del hdel hfail
  · intro hup hfail
    have hinL : f ∈ keys local_state := by
      rcases List.mem_append.mp hup with hx | hx
      · exact (hmem_add f hx).1
      · exact (hmem_upd f hx).1
    have hDel : f ∉ (calculate_diff local_state store).to_delete := by
      intro hmem
      exact (hmem_del f hmem).2 hinL
    simp only [SyncEngine.execute_operations]
    rw [SyncEngine.uploadPhase_lookup_failed _ _ _ _ _ hnd_up hup hfail]
    exact SyncEngine.deletePhase_lookup_not_mem _ _ _ _ _ hDel

/-- Witness for `apply_phase_partial_failure`: with always-raising delete and
upload oracles, the deleted-but-failed `d.png` entry survives, the failed new
upload `a.png` stays unrecorded, and the failed update `c.png` keeps its old
entry. -/
theorem apply_phase_partial_failure_witness :
    ((SyncEngine.execute_operations
        (calculate_diff
          [("a.png", ⟨"pa", "ha", 1, 1, "1x1"⟩), ("c.png", ⟨"pc", "hNew", 2, 2, "2x2"⟩)]
          [("c.png", ⟨"7", "hOld"⟩), ("d.png", ⟨"9", "h9"⟩)])
        [("a.png", ⟨"pa", "ha", 1, 1, "1x1"⟩), ("c.png", ⟨"pc", "hNew", 2, 2, "2x2"⟩)]
        [("c.png", ⟨"7", "hOld"⟩), ("d.png", ⟨"9", "h9"⟩)]
        [("c.png", ⟨"7", "hOld"⟩), ("d.png", ⟨"9", "h9"⟩)]
        (fun _ => .error "network down") (fun _ _ => .error "network down")).1.lookup "d.png"
      = [("c.png", (⟨"7", "hOld"⟩ : RemoteEntry)), ("d.png", ⟨"9", "h9"⟩)].lookup "d.png") ∧
    ((SyncEngine.execute_operations
        (calculate_diff
          [("a.png", ⟨"pa", "ha", 1, 1, "1x1"⟩), ("c.png", ⟨"pc", "hNew", 2, 2, "2x2"⟩)]
          [("c.png", ⟨"7", "hOld"⟩), ("d.png", ⟨"9", "h9"⟩)])
        [("a.png", ⟨"pa", "ha", 1, 1, "1x1"⟩), ("c.png", ⟨"pc", "hNew", 2, 2, "2x2"⟩)]
        [("c.png", ⟨"7", "hOld"⟩), ("d.png", ⟨"9", "h9"⟩)]
        [("c.png", ⟨"7", "hOld"⟩), ("d.png", ⟨"9", "h9"⟩)]
        (fun _ => .error "network down") (fun _ _ => .error "network down")).1.lookup "a.png"
      = [("c.png", (⟨"7", "hOld"⟩ : RemoteEntry)), ("d.png", ⟨"9", "h9"⟩)].lookup "a.png") ∧
    ((SyncEngine.execute_operations
        (calculate_diff
          [("a.png", ⟨"pa", "ha", 1, 1, "1x1"⟩), ("c.png", ⟨"pc", "hNew", 2, 2, "2x2"⟩)]
          [("c.png", ⟨"7", "hOld"⟩), ("d.png", ⟨"9", "h9"⟩)])
        [("a.png", ⟨"pa", "ha", 1, 1, "1x1"⟩), ("c.png", ⟨"pc", "hNew", 2, 2, "2x2"⟩)]
        [("c.png", ⟨"7", "hOld"⟩), ("d.png", ⟨"9", "h9"⟩)]
        [("c.png", ⟨"7", "hOld"⟩), ("d.png", ⟨"9", "h9"⟩)]
        (fun _ => .error "network down") (fun _ _ => .error "network down")).1.lookup "c.png"
      = [("c.png", (⟨"7", "hOld"⟩ : RemoteEntry)), ("d.png", ⟨"9", "h9"⟩)].lookup "c.png") :=
  ⟨(apply_phase_partial_failure
      [("a.png", ⟨"pa", "ha", 1, 1, "1x1"⟩), ("c.png", ⟨"pc", "hNew", 2, 2, "2x2"⟩)]
      [("c.png", ⟨"7", "hOld"⟩), ("d.png", ⟨"9", "h9"⟩)]
      (fun _ => .error "network down") (fun _ _ => .error "network down")
      "d.png" (by decide) (by decide)).1 (by decide) (by decide),
   (apply_phase_partial_failure
      [("a.png", ⟨"pa", "ha", 1, 1, "1x1"⟩), ("c.png", ⟨"pc", "hNew", 2, 2, "2x2"⟩)]
      [("c.png", ⟨"7", "hOld"⟩), ("d.png", ⟨"9", "h9"⟩)]
      (fun _ => .error "network down") (fun _ _ => .error "network down")
      "a.png" (by decide) (by decide)).2 (by decide) (by decide),
   (apply_phase_partial_failure
      [("a.png", ⟨"pa", "ha", 1, 1, "1x1"⟩), ("c.png", ⟨"pc", "hNew", 2, 2, "2x2"⟩)]
      [("c.png", ⟨"7", "hOld"⟩), ("d.png", ⟨"9", "h9"⟩)]
      (fun _ => .error "network down") (fun _ _ => .error "network down")
      "c.png" (by decide) (by decide)).2 (by decide) (by decide)⟩

namespace Coalescer

/-- The delay with which `_arm_timer` arms the single pending timer:
`MERGE_WINDOW_S = 1.2` or `RETRY_S = 1.0` (from
`ProjectInstance._on_file_change` in `multi_project_manager.py`). -/
inductive TimerDelay where
  | merge
  | retry
deriving DecidableEq, Repr

/-- The coalescer's shared dirty-state for one project:
`_dirty`, `_notes_dirty`, and the armed `_dirty_timer` (if any).  All of the
source's accesses to these fields happen under `_dirty_lock`, so each step
function below models one critical section. -/
structure CoState where
  dirty : Bool
  notesDirty : Bool
  timer : Option TimerDelay
deriving DecidableEq, Repr

/-- `ProjectInstance._on_file_change(notes_dirty)`: mark `_dirty = True`,
raise `_notes_dirty` only upward (`if notes_dirty: self._notes_dirty = True`),
then `_arm_timer(MERGE_WINDOW_S)` (cancelling any pending timer). -/
def onFileChange (isNotes : Bool) (s : CoState) : CoState :=
  { dirty := true
    notesDirty := s.notesDirty || isNotes
    timer := some .merge }

/-- What one `_drain_dirty` timer callback did: the orchestrator invocation it
handed off (flag passed and `run_sync` outcome, `none` if no hand-off), and
the timer arms it performed, in order. -/
structure DrainLog where
  invoked : Option (Bool × Except String Unit)
  arms : List TimerDelay
deriving Repr

/-- `_drain_dirty` from `multi_project_manager.py`, one timer firing:
return early if not dirty; if `sync_lock` is busy re-arm the retry timer and
leave both flags untouched; otherwise snapshot-and-clear both flags, call
`run_sync(notes_dirty=snapshot)` catching any exception (an exception
re-marks `_dirty = True` and arms the retry timer), and in the `finally`
block arm the merge timer again if `_dirty` is set (the follow-up round). -/
def drainDirty (lockBusy : Bool) (runSync : Bool → Except String Unit)
    (s : CoState) : CoState × DrainLog :=
  let s₀ : CoState := { s with timer := none }
  if s₀.dirty = false then (s₀, ⟨none, []⟩)
  else if lockBusy then ({ s₀ with timer := some .retry }, ⟨none, [.retry]⟩)
  else
    let notes := s₀.notesDirty
    let s₁ : CoState := { s₀ with dirty := false, notesDirty := false }
    let result := runSync notes
    let s₂ : CoState :=
      match result with
      | .ok _ => s₁
      | .error _ => { s₁ with dirty := true, timer := some .retry }
    let armsExc : List TimerDelay :=
      match result with
      | .ok _ => []
      | .error _ => [.retry]
    if s₂.dirty then
      ({ s₂ with timer := some .merge }, ⟨some (notes, result), armsExc ++ [.merge]⟩)
    else (s₂, ⟨some (notes, result), armsExc⟩)

/-- `FileMonitor`'s own debounce flag state (`file_monitor.py`):
`_notes_dirty` and whether the single debounce timer is armed. -/
structure MonitorState where
  notes_dirty : Bool
  timerArmed : Bool
deriving DecidableEq, Repr

/-- `FileMonitor._schedule(notes_dirty)`: re-arm the debounce timer and raise
`_notes_dirty` only upward — a later image event never clears it. -/
def schedule (notes_dirty : Bool) (s : MonitorState) : MonitorState :=
  { notes_dirty := s.notes_dirty || notes_dirty, timerArmed := true }

end Coalescer

/-- C2: the captions-dirty flag is monotonic within a debounce window.  An
asset-only event (`isNotes = false`) never changes it, any event preserves a
set flag (both at the `FileMonitor._schedule` level and the
`ProjectInstance._on_file_change` level), a lock-busy drain leaves both flags
untouched and hands nothing to the orchestrator, and the only step that
clears a set captions-dirty flag is a drain that actually hands
`runSync (captionsChanged := true)` off with the lock free. -/
theorem captions_dirty_monotonic (s : Coalescer.CoState)
    (ms : Coalescer.MonitorState) (b lockBusy : Bool)
    (runSync : Bool → Except String Unit) :
    ((Coalescer.onFileChange false s).notesDirty = s.notesDirty) ∧
    (s.notesDirty = true → (Coalescer.onFileChange b s).notesDirty = true) ∧
    ((Coalescer.schedule false ms).notes_dirty = ms.notes_dirty) ∧
    (ms.notes_dirty = true → (Coalescer.schedule b ms).notes_dirty = true) ∧
    (lockBusy = true →
      (Coalescer.drainDirty lockBusy runSync s).1.notesDirty = s.notesDirty ∧
      (Coalescer.drainDirty lockBusy runSync s).1.dirty = s.dirty ∧
      (Coalescer.drainDirty lockBusy runSync s).2.invoked = none) ∧
    (s.notesDirty = true →
      (Coalescer.drainDirty lockBusy runSync s).1.notesDirty = false →
      lockBusy = false ∧
      (Coalescer.drainDirty lockBusy runSync s).2.invoked
        = some (true, runSync true)) := by
  obtain ⟨sd, snd, st⟩ := s
  refine ⟨by simp [Coalescer.onFileChange], ?_, by simp [Coalescer.schedule], ?_, ?_, ?_⟩
  · intro h
    simp only at h
    simp [Coalescer.onFileChange, h]
  · intro h
    obtain ⟨mnd, mt⟩ := ms
    simp only at h
    simp [Coalescer.schedule, h]
  · intro h
    subst h
    cases sd <;> simp [Coalescer.drainDirty]
  · intro h hcleared
    simp only at h
    subst h
    cases sd
    · simp [Coalescer.drainDirty] at hcleared
    · cases lockBusy
      · refine ⟨rfl, ?_⟩
        rcases hr : runSync true with u | e <;>
          simp [Coalescer.drainDirty, hr]
      · simp [Coalescer.drainDirty] at hcleared

/-- Witness for `captions_dirty_monotonic`: a caption event preserves the set
flag; a lock-busy drain touches nothing; a lock-free drain clears the flag
exactly while handing `runSync true` off. -/
theorem captions_dirty_monotonic_witness :
    (Coalescer.onFileChange true ⟨true, true, none⟩).notesDirty = true ∧
    ((Coalescer.drainDirty true (fun _ => Except.ok ()) ⟨true, true, none⟩).1.notesDirty
        = (⟨true, true, none⟩ : Coalescer.CoState).notesDirty ∧
      (Coalescer.drainDirty true (fun _ => Except.ok ()) ⟨true, true, none⟩).1.dirty
        = (⟨true, true, none⟩ : Coalescer.CoState).dirty ∧
      (Coalescer.drainDirty true (fun _ => Except.ok ()) ⟨true, true, none⟩).2.invoked
        = none) ∧
    (false = false ∧
      (Coalescer.drainDirty false (fun _ => Except.ok ()) ⟨true, true, none⟩).2.invoked
        = some (true, Except.ok ())) :=
  ⟨(captions_dirty_monotonic ⟨true, true, none⟩ ⟨true, true⟩ true true
      (fun _ => Except.ok ())).2.1 rfl,
   (captions_dirty_monotonic ⟨true, true, none⟩ ⟨true, true⟩ true true
      (fun _ => Except.ok ())).2.2.2.2.1 rfl,
   (captions_dirty_monotonic ⟨true, true, none⟩ ⟨true, true⟩ true false
      (fun _ => Except.ok ())).2.2.2.2.2 rfl rfl⟩

/-- C9: when `run_sync` raises out of a drained round, `_drain_dirty` catches
the exception (the step returns normally with the error only recorded in the
log — nothing propagates to the watcher thread), re-marks `_dirty = true`,
and re-arms timers: the `except` block arms the retry timer and the `finally`
block, finding `_dirty` set, arms the merge-window timer over it, so a later
round is attempted. -/
theorem drain_exception_self_healing (s : Coalescer.CoState)
    (runSync : Bool → Except String Unit) (e : String)
    (hd : s.dirty = true)
    (herr : runSync s.notesDirty = Except.error e) :
    (Coalescer.drainDirty false runSync s).2.invoked
        = some (s.notesDirty, Except.error e) ∧
    (Coalescer.drainDirty false runSync s).1.dirty = true ∧
    Coalescer.TimerDelay.retry ∈ (Coalescer.drainDirty false runSync s).2.arms ∧
    (Coalescer.drainDirty false runSync s).1.timer
        = some Coalescer.TimerDelay.merge := by
  obtain ⟨sd, snd, st⟩ := s
  simp only at hd herr
  subst hd
  simp [Coalescer.drainDirty, herr]

/-- Witness for `drain_exception_self_healing` on a dirty state whose sync
always fails. -/
theorem drain_exception_self_healing_witness :
    (Coalescer.drainDirty false (fun _ => Except.error "sync failed")
        ⟨true, false, none⟩).2.invoked
      = some ((⟨true, false, none⟩ : Coalescer.CoState).notesDirty,
          Except.error "sync failed") ∧
    (Coalescer.drainDirty false (fun _ => Except.error "sync failed")
        ⟨true, false, none⟩).1.dirty = true ∧
    Coalescer.TimerDelay.retry ∈ (Coalescer.drainDirty false
        (fun _ => Except.error "sync failed") ⟨true, false, none⟩).2.arms ∧
    (Coalescer.drainDirty false (fun _ => Except.error "sync failed")
        ⟨true, false, none⟩).1.timer = some Coalescer.TimerDelay.merge :=
  drain_exception_self_healing ⟨true, false, none⟩
    (fun _ => Except.error "sync failed") "sync failed" rfl rfl

namespace FileMonitor

/-- What a watcher callback body can do once entered. -/
inductive WatchEv where
  | runSyncCall (is_startup : Bool) (notes_dirty : Bool)
  | skippedLockBusy
deriving DecidableEq, Repr

/-- A Python callable used as the monitor's callback: the least and greatest
number of positional arguments its signature binds (`self` excluded for bound
methods; the spread accounts for defaulted parameters), and what the body
does when actually entered, as a function of the bound boolean argument. -/
structure PyCallback where
  minArgs : Nat
  maxArgs : Nat
  body : Bool → List WatchEv

/-- Python call semantics for `self.callback(notes_dirty)` in
`FileMonitor._fire_if_idle`: the single positional argument binds iff the
signature accepts one positional argument; otherwise the call raises
`TypeError` before the body ever runs. -/
def callWithOneArg (cb : PyCallback) (arg : Bool) : Except Unit (List WatchEv) :=
  if cb.minArgs ≤ 1 ∧ 1 ≤ cb.maxArgs then .ok (cb.body arg) else .error ()

/-- Outcome of one `_fire_if_idle` firing past the idle check. -/
inductive FireResult where
  | callbackRan (evs : List WatchEv)
  | printedCallbackError
deriving DecidableEq, Repr

/-- `FileMonitor._fire_if_idle` (`file_monitor.py` lines 118-128) past the
idle re-check: invoke `self.callback(notes_dirty)` inside `try`; any
exception is caught by `except Exception` and only printed. -/
def fire_if_idle (cb : PyCallback) (notes_dirty : Bool) : FireResult :=
  match callWithOneArg cb notes_dirty with
  | .ok evs => .callbackRan evs
  | .error _ => .printedCallbackError

/-- The watcher-visible events a firing actually performed. -/
def eventsOf : FireResult → List WatchEv
  | .callbackRan evs => evs
  | .printedCallbackError => []

/-- `SyncApplication._on_file_change` from `main.py`: its signature is
`(self)` — zero positional parameters besides `self`.  Its body (were it ever
entered) try-acquires `sync_lock` and either runs
`run_sync(is_startup=False, log_reason="Watcher Sync")` or logs a skip. -/
def syncApplicationCallback (lockFree : Bool) : PyCallback :=
  { minArgs := 0
    maxArgs := 0
    body := fun _ =>
      if lockFree then [WatchEv.runSyncCall false false]
      else [WatchEv.skippedLockBusy] }

end FileMonitor

/-- C10: in the single-project watch mode, `FileMonitor._fire_if_idle` always
invokes the callback with one positional boolean argument, but
`SyncApplication._on_file_change` accepts none, so every debounce firing in
that configuration raises a `TypeError` that `_fire_if_idle` catches and only
prints — and the orchestrator's `run_sync` is never invoked from the watcher,
whatever the argument value or the lock state. -/
theorem watch_mode_arity_mismatch (b lockFree : Bool) :
    FileMonitor.fire_if_idle (FileMonitor.syncApplicationCallback lockFree) b
        = FileMonitor.FireResult.printedCallbackError ∧
    ∀ s n, FileMonitor.WatchEv.runSyncCall s n ∉
      FileMonitor.eventsOf (FileMonitor.fire_if_idle
        (FileMonitor.syncApplicationCallback lockFree) b) := by
  constructor
  · rfl
  · intro s n
    simp [FileMonitor.fire_if_idle, FileMonitor.callWithOneArg,
      FileMonitor.syncApplicationCallback, FileMonitor.eventsOf]

end ConfluenceSync
